import Mathlib

/-!
Shallow embedding of the time-auction GameRoom coordinator
(worker/src/durable-objects/GameRoom.ts, reproduced in ARCHITECTURE.md)
together with the shared types (shared/types.ts) and constants
(shared/constants.ts).  JS numbers that hold millisecond timestamps and
durations are modelled as Int; counters as Nat; the insertion-ordered
JS Map of player sessions as a List in registry order; WebSockets as
numeric connection ids carrying an optional playerId attachment.
Date.now(), crypto.randomUUID(), token generation and password hashing
are nondeterministic or cryptographic, so they enter as explicit
parameters of the handlers.
-/

namespace TimeAuction

/-! ### Constants (shared/constants.ts) -/

def TIE_THRESHOLD_MS : Int := 100
def PRE_ROUND_COUNTDOWN_MS : Int := 3000
def ROUND_RESULTS_DISPLAY_MS : Int := 5000
def RECONNECT_WINDOW_MS : Int := 30000
def MAX_LATENCY_COMPENSATION_MS : Int := 200

/-! ### Data model (shared/types.ts and GameRoom.ts interfaces) -/

structure TableSettings where
  tableName : String
  startingTimeMs : Int
  numRounds : Nat
  maxPlayers : Nat
  gracePeriodMs : Int
  hasPassword : Bool
  deriving Repr, DecidableEq

inductive TableStatus where
  | lobby
  | playing
  | finished
  deriving Repr, DecidableEq

inductive RoundPhase where
  | pre_round
  | grace_period
  | bidding
  | resolution
  deriving Repr, DecidableEq

structure PlayerSession where
  id : String
  displayName : String
  reconnectToken : String
  isHost : Bool
  isReady : Bool
  isConnected : Bool
  timeRemainingMs : Int
  victoryPoints : Nat
  lastWinRound : Option Nat
  bidStartTime : Option Int
  bidEndTime : Option Int
  currentBidMs : Int
  hasReleasedThisRound : Bool
  deriving Repr, DecidableEq

/-- The public player record (shared/types.ts `Player`); note that it has
no reconnectToken field. -/
structure Player where
  id : String
  displayName : String
  isHost : Bool
  isReady : Bool
  isConnected : Bool
  timeRemainingMs : Int
  victoryPoints : Nat
  lastWinRound : Option Nat
  deriving Repr, DecidableEq

structure PlayerBidStatus where
  playerId : String
  isBidding : Bool
  currentBidMs : Int
  hasReleasedThisRound : Bool
  deriving Repr, DecidableEq

structure PlayerRoundResult where
  playerId : String
  displayName : String
  bidMs : Int
  participated : Bool
  deriving Repr, DecidableEq

structure RoundResult where
  roundNumber : Nat
  winnerId : Option String
  winnerName : Option String
  winningBidMs : Int
  wasTie : Bool
  playerResults : List PlayerRoundResult
  deriving Repr, DecidableEq

structure FinalStanding where
  rank : Nat
  playerId : String
  displayName : String
  victoryPoints : Nat
  timeRemainingMs : Int
  lastWinRound : Option Nat
  deriving Repr, DecidableEq

structure GameState where
  status : TableStatus
  currentRound : Nat
  totalRounds : Nat
  roundPhase : RoundPhase
  phaseStartTime : Int
  phaseEndTime : Option Int
  players : List Player
  playerBids : List PlayerBidStatus
  deriving Repr, DecidableEq

structure TableState where
  tableId : String
  hostToken : String
  passwordHash : Option String
  settings : TableSettings
  status : TableStatus
  hostId : Option String
  currentRound : Nat
  roundPhase : RoundPhase
  phaseStartTime : Int
  roundHistory : List RoundResult
  deriving Repr, DecidableEq

inductive ErrorCode where
  | TABLE_NOT_FOUND
  | TABLE_FULL
  | GAME_ALREADY_STARTED
  | INVALID_PASSWORD
  | NAME_TAKEN
  | NOT_HOST
  | NOT_ENOUGH_PLAYERS
  | PLAYERS_NOT_READY
  | INVALID_ACTION
  | RATE_LIMITED
  deriving Repr, DecidableEq

/-- Server-to-client messages (shared/types.ts `ServerMessage`).  Only the
`welcome` variant carries a reconnect token. -/
inductive ServerMessage where
  | welcome (playerId : String) (reconnectToken : String) (serverTime : Int)
  | error (code : ErrorCode) (message : String)
  | lobbyState (settings : TableSettings) (players : List Player) (hostId : String)
  | playerJoined (player : Player)
  | playerLeft (playerId : String)
  | playerReady (playerId : String) (isReady : Bool)
  | playerKicked (playerId : String)
  | gameStarting (countdown : Nat)
  | gameState (state : GameState)
  | roundStart (round : Nat) (totalRounds : Nat) (startsAt : Int)
  | roundActive (gracePeriodEndsAt : Int)
  | graceExpired
  | bidUpdate (playerId : String) (isBidding : Bool) (currentBidMs : Int)
  | roundEnd (results : RoundResult) (nextRoundIn : Int)
  | gameEnd (standings : List FinalStanding)
  | playerDisconnected (playerId : String) (reconnectDeadline : Int)
  | playerReconnected (playerId : String)
  | pong (serverTime : Int)
  deriving Repr, DecidableEq

inductive ClientMessage where
  | join (playerName : String) (password : Option String) (reconnectToken : Option String)
  | ready (isReady : Bool)
  | startGame
  | bidStart (clientTimestamp : Int)
  | bidEnd (clientTimestamp : Int)
  | kick (playerId : String)
  | ping
  | leave
  deriving Repr, DecidableEq

/-- A WebSocket connection: its id plus the serialized attachment set by
setWsPlayerId. -/
structure Sock where
  connId : Nat
  playerId : Option String
  deriving Repr, DecidableEq

/-- The mutable state of one GameRoom durable object. -/
structure Room where
  tableState : Option TableState
  players : List PlayerSession
  sockets : List Sock
  deriving Repr, DecidableEq

/-- Externally visible side effects of a handler invocation. -/
inductive OutEvent where
  | sendTo (conn : Nat) (msg : ServerMessage)
  | broadcastExcept (exclude : Option Nat) (msg : ServerMessage)
  | closeWs (conn : Nat)
  | setAlarm (at_ : Int)
  deriving Repr, DecidableEq

/-! ### Session helpers -/

/-- GameRoom.getSessionFromWs: resolve the ws attachment to a session. -/
def getSessionFromWs (room : Room) (conn : Nat) : Option PlayerSession :=
  match room.sockets.find? (fun s => s.connId == conn) with
  | none => none
  | some s =>
    match s.playerId with
    | none => none
    | some pid => room.players.find? (fun p => p.id == pid)

/-- GameRoom.setWsPlayerId: store the playerId in the ws attachment. -/
def setWsPlayerId (sockets : List Sock) (conn : Nat) (pid : String) : List Sock :=
  sockets.map (fun s => if s.connId = conn then { s with playerId := some pid } else s)

/-- Mutating the session object found in the Map is modelled as updating
the registry entry with that id. -/
def updatePlayer (players : List PlayerSession) (pid : String)
    (f : PlayerSession → PlayerSession) : List PlayerSession :=
  players.map (fun p => if p.id = pid then f p else p)

def findPlayer (players : List PlayerSession) (pid : String) : Option PlayerSession :=
  players.find? (fun p => p.id == pid)

/-- GameRoom.toPlayerInfo: the broadcast-safe projection of a session.
The reconnectToken field is not copied. -/
def toPlayerInfo (session : PlayerSession) : Player :=
  { id := session.id
    displayName := session.displayName
    isHost := session.isHost
    isReady := session.isReady
    isConnected := session.isConnected
    timeRemainingMs := session.timeRemainingMs
    victoryPoints := session.victoryPoints
    lastWinRound := session.lastWinRound }

/-! ### Round resolution (GameRoom.endRound) -/

/-- Accumulator of the single pass over the registry in endRound. -/
structure ResolveAcc where
  bids : List PlayerRoundResult
  maxBid : Int
  winnerId : Option String
  winnerName : Option String
  tieCount : Nat
  done : List PlayerSession
  deriving Repr, DecidableEq

/-- One iteration of the endRound loop body. -/
def resolveStep (acc : ResolveAcc) (player : PlayerSession) : ResolveAcc :=
  let bidMs := player.currentBidMs
  let bids := acc.bids ++ [{ playerId := player.id
                             displayName := player.displayName
                             bidMs := bidMs
                             participated := bidMs > 0 }]
  if bidMs > 0 then
    -- Deduct bid from time bank
    let player1 := { player with timeRemainingMs := max 0 (player.timeRemainingMs - bidMs) }
    if bidMs > acc.maxBid + TIE_THRESHOLD_MS then
      { bids := bids, maxBid := bidMs, winnerId := some player.id
        winnerName := some player.displayName, tieCount := 1
        done := acc.done ++ [player1] }
    else if |bidMs - acc.maxBid| ≤ TIE_THRESHOLD_MS ∧ bidMs ≥ acc.maxBid then
      if bidMs > acc.maxBid then
        { bids := bids, maxBid := bidMs, winnerId := some player.id
          winnerName := some player.displayName, tieCount := acc.tieCount + 1
          done := acc.done ++ [player1] }
      else
        { acc with bids := bids, tieCount := acc.tieCount + 1
                   done := acc.done ++ [player1] }
    else
      { acc with bids := bids, done := acc.done ++ [player1] }
  else
    { acc with bids := bids, done := acc.done ++ [player] }

/-- GameRoom.endRound. -/
def endRound (room : Room) (now : Int) : Room × List OutEvent :=
  match room.tableState with
  | none => (room, [])
  | some ts =>
    let ts1 := { ts with roundPhase := RoundPhase.resolution, phaseStartTime := now }
    let acc := room.players.foldl resolveStep
      { bids := [], maxBid := 0, winnerId := none, winnerName := none
        tieCount := 0, done := [] }
    -- Handle tie - no winner
    let wasTie := acc.tieCount > 1
    let winnerId := if wasTie then none else acc.winnerId
    let winnerName := if wasTie then none else acc.winnerName
    -- Award victory point to winner
    let players1 :=
      match winnerId with
      | some wid =>
        updatePlayer acc.done wid (fun w =>
          { w with victoryPoints := w.victoryPoints + 1
                   lastWinRound := some ts1.currentRound })
      | none => acc.done
    let roundResult : RoundResult :=
      { roundNumber := ts1.currentRound
        winnerId := winnerId
        winnerName := winnerName
        winningBidMs := acc.maxBid
        wasTie := wasTie
        playerResults := acc.bids }
    let ts2 := { ts1 with roundHistory := ts1.roundHistory ++ [roundResult] }
    ({ room with tableState := some ts2, players := players1 },
     [OutEvent.broadcastExcept none (ServerMessage.roundEnd roundResult ROUND_RESULTS_DISPLAY_MS),
      OutEvent.setAlarm (now + ROUND_RESULTS_DISPLAY_MS)])

/-- GameRoom.checkRoundEnd. -/
def checkRoundEnd (room : Room) (now : Int) : Room × List OutEvent :=
  match room.tableState with
  | none => (room, [])
  | some ts =>
    if ts.roundPhase ≠ RoundPhase.bidding then (room, [])
    else
      -- Round ends when all connected players have released
      let allReleased := (room.players.filter (fun p => p.isConnected)).all
        (fun p => p.hasReleasedThisRound || p.bidStartTime == none)
      if allReleased then endRound room now else (room, [])

/-! ### Bid handlers (GameRoom.handleBidStart / handleBidEnd) -/

/-- GameRoom.handleBidStart.  `now` models Date.now(). -/
def handleBidStart (room : Room) (conn : Nat) (clientTimestamp : Int) (now : Int) :
    Room × List OutEvent :=
  match getSessionFromWs room conn, room.tableState with
  | some session, some ts =>
    if ts.status ≠ TableStatus.playing then (room, [])
    else if ts.roundPhase ≠ RoundPhase.grace_period ∧ ts.roundPhase ≠ RoundPhase.bidding then
      (room, [])
    else if session.bidStartTime ≠ none then (room, []) -- Already bidding
    else
      let serverTime := now
      let latency := min |serverTime - clientTimestamp| MAX_LATENCY_COMPENSATION_MS
      let players1 := updatePlayer room.players session.id
        (fun p => { p with bidStartTime := some (serverTime - latency) })
      ({ room with players := players1 },
       [OutEvent.broadcastExcept none (ServerMessage.bidUpdate session.id true 0)])
  | _, _ => (room, [])

/-- GameRoom.handleBidEnd.  `now` models Date.now(). -/
def handleBidEnd (room : Room) (conn : Nat) (clientTimestamp : Int) (now : Int) :
    Room × List OutEvent :=
  match getSessionFromWs room conn, room.tableState with
  | some session, some ts =>
    match session.bidStartTime with
    | none => (room, []) -- Not bidding
    | some bidStartTime =>
      let serverTime := now
      let latency := min |serverTime - clientTimestamp| MAX_LATENCY_COMPENSATION_MS
      let bidEndTime := serverTime - latency
      -- Check if bid was during grace period (no penalty)
      let graceEnded := ts.roundPhase = RoundPhase.bidding
      let currentBidMs : Int :=
        if ¬ graceEnded then 0
        else
          -- Only count time after grace period
          let graceEndTime := ts.phaseStartTime
          let effectiveStart := max bidStartTime graceEndTime
          max 0 (bidEndTime - effectiveStart)
      let players1 := updatePlayer room.players session.id
        (fun p => { p with currentBidMs := currentBidMs
                           hasReleasedThisRound := true
                           bidStartTime := none
                           bidEndTime := none })
      let room1 := { room with players := players1 }
      let res := checkRoundEnd room1 now
      (res.1,
       OutEvent.broadcastExcept none
         (ServerMessage.bidUpdate session.id false currentBidMs) :: res.2)
  | _, _ => (room, [])

/-! ### Game state snapshots and lobby broadcasts -/

/-- GameRoom.getGameState. -/
def getGameState (room : Room) (ts : TableState) : GameState :=
  { status := ts.status
    currentRound := ts.currentRound
    totalRounds := ts.settings.numRounds
    roundPhase := ts.roundPhase
    phaseStartTime := ts.phaseStartTime
    phaseEndTime := none
    players := room.players.map toPlayerInfo
    playerBids := room.players.map (fun p =>
      { playerId := p.id
        isBidding := p.bidStartTime.isSome
        currentBidMs := p.currentBidMs
        hasReleasedThisRound := p.hasReleasedThisRound }) }

/-- The lobbyState message payload used by sendLobbyState and
broadcastLobbyState. -/
def lobbyStateMsg (room : Room) (ts : TableState) : ServerMessage :=
  ServerMessage.lobbyState ts.settings (room.players.map toPlayerInfo)
    (ts.hostId.getD "")

/-- GameRoom.sendCurrentState. -/
def sendCurrentState (room : Room) (conn : Nat) : List OutEvent :=
  match room.tableState with
  | none => []
  | some ts =>
    if ts.status = TableStatus.lobby then
      [OutEvent.sendTo conn (lobbyStateMsg room ts)]
    else
      [OutEvent.sendTo conn (ServerMessage.gameState (getGameState room ts))]

/-! ### Join, ready, startGame (GameRoom.handleJoin etc.) -/

/-- The body of handleJoin after the password check: reconnect branch,
lobby-phase checks, then creation of a new player. -/
def handleJoinAfterPassword (room : Room) (conn : Nat) (playerName : String)
    (reconnectToken : Option String) (now : Int) (freshId : String)
    (freshToken : String) (ts : TableState) : Room × List OutEvent :=
  -- Check for reconnection
  match reconnectToken.bind
      (fun tok => room.players.find? (fun p => p.reconnectToken == tok)) with
  | some player =>
    let players1 := updatePlayer room.players player.id
      (fun p => { p with isConnected := true })
    let sockets1 := setWsPlayerId room.sockets conn player.id
    let room1 := { room with players := players1, sockets := sockets1 }
    (room1,
     [OutEvent.sendTo conn
        (ServerMessage.welcome player.id player.reconnectToken now),
      OutEvent.broadcastExcept none (ServerMessage.playerReconnected player.id)]
     ++ sendCurrentState room1 conn)
  | none =>
    -- Check if game already started
    if ts.status ≠ TableStatus.lobby then
      (room, [OutEvent.sendTo conn
        (ServerMessage.error ErrorCode.GAME_ALREADY_STARTED "Game has already started")])
    -- Check if table is full
    else if room.players.length ≥ ts.settings.maxPlayers then
      (room, [OutEvent.sendTo conn
        (ServerMessage.error ErrorCode.TABLE_FULL "Table is full")])
    -- Check if name is taken
    else if room.players.any
        (fun p => p.displayName.toLower == playerName.toLower) then
      (room, [OutEvent.sendTo conn
        (ServerMessage.error ErrorCode.NAME_TAKEN "Name is already taken")])
    else
      -- Create new player
      let playerId := freshId
      let newReconnectToken := freshToken
      let isHost := room.players.length = 0
      let session : PlayerSession :=
        { id := playerId
          displayName := playerName
          reconnectToken := newReconnectToken
          isHost := isHost
          isReady := false
          isConnected := true
          timeRemainingMs := ts.settings.startingTimeMs
          victoryPoints := 0
          lastWinRound := none
          bidStartTime := none
          bidEndTime := none
          currentBidMs := 0
          hasReleasedThisRound := false }
      let players1 := room.players ++ [session]
      let sockets1 := setWsPlayerId room.sockets conn playerId
      let ts1 := if isHost then { ts with hostId := some playerId } else ts
      let room1 := { room with tableState := some ts1, players := players1
                               sockets := sockets1 }
      (room1,
       [OutEvent.sendTo conn
          (ServerMessage.welcome playerId newReconnectToken now),
        OutEvent.broadcastExcept none (lobbyStateMsg room1 ts1),
        OutEvent.broadcastExcept (some conn)
          (ServerMessage.playerJoined (toPlayerInfo session))])

/-- GameRoom.handleJoin.  `freshId` models crypto.randomUUID(), `freshToken`
models generateToken(), `hashFn` models the SHA-256 hex digest of
hashPassword. -/
def handleJoin (room : Room) (conn : Nat) (playerName : String)
    (password : Option String) (reconnectToken : Option String)
    (now : Int) (freshId : String) (freshToken : String)
    (hashFn : String → String) : Room × List OutEvent :=
  match room.tableState with
  | none => (room, [])
  | some ts =>
    -- Check password
    match ts.passwordHash, password with
    | some _, none =>
      (room, [OutEvent.sendTo conn
        (ServerMessage.error ErrorCode.INVALID_PASSWORD "Password required")])
    | some storedHash, some pw =>
      if hashFn pw ≠ storedHash then
        (room, [OutEvent.sendTo conn
          (ServerMessage.error ErrorCode.INVALID_PASSWORD "Invalid password")])
      else handleJoinAfterPassword room conn playerName reconnectToken now freshId freshToken ts
    | none, _ =>
      handleJoinAfterPassword room conn playerName reconnectToken now freshId freshToken ts

/-- GameRoom.handleReady. -/
def handleReady (room : Room) (conn : Nat) (isReady : Bool) : Room × List OutEvent :=
  match getSessionFromWs room conn, room.tableState with
  | some session, some ts =>
    if ts.status ≠ TableStatus.lobby then (room, [])
    else
      let players1 := updatePlayer room.players session.id
        (fun p => { p with isReady := isReady })
      ({ room with players := players1 },
       [OutEvent.broadcastExcept none (ServerMessage.playerReady session.id isReady)])
  | _, _ => (room, [])

/-- GameRoom.handleStartGame. -/
def handleStartGame (room : Room) (conn : Nat) (now : Int) : Room × List OutEvent :=
  match getSessionFromWs room conn, room.tableState with
  | some session, some ts =>
    if ¬ session.isHost then
      (room, [OutEvent.sendTo conn
        (ServerMessage.error ErrorCode.NOT_HOST "Only the host can start the game")])
    else if room.players.length < 2 then
      (room, [OutEvent.sendTo conn
        (ServerMessage.error ErrorCode.NOT_ENOUGH_PLAYERS "Need at least 2 players")])
    else if ¬ room.players.all (fun p => p.isReady) then
      (room, [OutEvent.sendTo conn
        (ServerMessage.error ErrorCode.PLAYERS_NOT_READY "All players must be ready")])
    else
      let ts1 := { ts with status := TableStatus.playing, currentRound := 1
                           roundPhase := RoundPhase.pre_round, phaseStartTime := now }
      -- Initialize round state for all players
      let players1 := room.players.map (fun p =>
        { p with bidStartTime := none, bidEndTime := none
                 currentBidMs := 0, hasReleasedThisRound := false })
      ({ room with tableState := some ts1, players := players1 },
       [OutEvent.broadcastExcept none (ServerMessage.gameStarting 3),
        OutEvent.setAlarm (now + PRE_ROUND_COUNTDOWN_MS),
        OutEvent.broadcastExcept none
          (ServerMessage.roundStart 1 ts.settings.numRounds (now + PRE_ROUND_COUNTDOWN_MS))])
  | _, _ => (room, [])

/-! ### Kick and leave (GameRoom.handleKick / handleLeave) -/

/-- GameRoom.handleKick. -/
def handleKick (room : Room) (conn : Nat) (playerId : String) : Room × List OutEvent :=
  match getSessionFromWs room conn, room.tableState with
  | some session, some _ =>
    if ¬ session.isHost then
      (room, [OutEvent.sendTo conn
        (ServerMessage.error ErrorCode.NOT_HOST "Only the host can kick players")])
    else if playerId = session.id then
      (room, [OutEvent.sendTo conn
        (ServerMessage.error ErrorCode.INVALID_ACTION "Cannot kick yourself")])
    else
      match findPlayer room.players playerId with
      | none => (room, [])
      | some _ =>
        -- Find and close their WebSocket
        let kickEvs :=
          match room.sockets.find? (fun sk =>
            match getSessionFromWs room sk.connId with
            | some other => other.id == playerId
            | none => false) with
          | some sk =>
            [OutEvent.sendTo sk.connId (ServerMessage.playerKicked playerId),
             OutEvent.closeWs sk.connId]
          | none => []
        let players1 := room.players.filter (fun p => ¬ (p.id = playerId))
        ({ room with players := players1 },
         kickEvs ++ [OutEvent.broadcastExcept none (ServerMessage.playerLeft playerId)])
  | _, _ => (room, [])

/-- GameRoom.handleLeave. -/
def handleLeave (room : Room) (conn : Nat) : Room × List OutEvent :=
  match getSessionFromWs room conn with
  | none => (room, [])
  | some session =>
    let players1 := updatePlayer room.players session.id
      (fun p => { p with isConnected := false })
    let room1 := { room with players := players1 }
    match room1.tableState with
    | some ts =>
      if ts.status = TableStatus.lobby then
        ({ room1 with players := room1.players.filter (fun p => ¬ (p.id = session.id)) },
         [OutEvent.broadcastExcept none (ServerMessage.playerLeft session.id),
          OutEvent.closeWs conn])
      else (room1, [OutEvent.closeWs conn])
    | none => (room1, [OutEvent.closeWs conn])

/-! ### Disconnects and timers (webSocketClose / alarm) -/

/-- GameRoom.webSocketClose. -/
def webSocketClose (room : Room) (conn : Nat) (now : Int) : Room × List OutEvent :=
  match getSessionFromWs room conn with
  | none => (room, [])
  | some session =>
    let players1 := updatePlayer room.players session.id
      (fun p => { p with isConnected := false })
    ({ room with players := players1 },
     [OutEvent.broadcastExcept none
        (ServerMessage.playerDisconnected session.id (now + RECONNECT_WINDOW_MS)),
      OutEvent.setAlarm (now + RECONNECT_WINDOW_MS)])

/-- GameRoom.endGame final-standings comparator, exactly the JS sort
callback: negative means the first argument sorts earlier. -/
def standingsCmp (a b : FinalStanding) : Int :=
  -- Sort by: points (desc) -> time remaining (desc) -> last win round (desc)
  if b.victoryPoints ≠ a.victoryPoints then
    (b.victoryPoints : Int) - (a.victoryPoints : Int)
  else if b.timeRemainingMs ≠ a.timeRemainingMs then
    b.timeRemainingMs - a.timeRemainingMs
  else
    (b.lastWinRound.getD 0 : Int) - (a.lastWinRound.getD 0 : Int)

/-- The boolean order used to run the stable sort: `a` may precede `b`
when the comparator is nonpositive.  ES2019 requires Array.prototype.sort
to be stable, and standingsCmp is a consistent comparator, so the JS sort
result is exactly the stable sort by this relation. -/
def standingsLe (a b : FinalStanding) : Bool :=
  standingsCmp a b ≤ 0

/-- The pre-sort standing built from a session in endGame (rank filled
with 0, as in the source). -/
def toStanding (p : PlayerSession) : FinalStanding :=
  { rank := 0
    playerId := p.id
    displayName := p.displayName
    victoryPoints := p.victoryPoints
    timeRemainingMs := p.timeRemainingMs
    lastWinRound := p.lastWinRound }

/-- The forEach of endGame that assigns rank i + 1 to the element at
index i of the sorted list. -/
def assignRanks : Nat → List FinalStanding → List FinalStanding
  | _, [] => []
  | i, s :: rest => { s with rank := i + 1 } :: assignRanks (i + 1) rest

/-- GameRoom.endGame standings computation: map, stable sort, then assign
ranks 1..N in order. -/
def finalStandings (players : List PlayerSession) : List FinalStanding :=
  let standings0 : List FinalStanding := players.map toStanding
  let sorted := standings0.mergeSort standingsLe
  -- Assign ranks
  assignRanks 0 sorted

/-- GameRoom.endGame. -/
def endGame (room : Room) : Room × List OutEvent :=
  match room.tableState with
  | none => (room, [])
  | some ts =>
    let ts1 := { ts with status := TableStatus.finished }
    let standings := finalStandings room.players
    ({ room with tableState := some ts1 },
     [OutEvent.broadcastExcept none (ServerMessage.gameEnd standings)])

/-- GameRoom.startNextRound. -/
def startNextRound (room : Room) (now : Int) : Room × List OutEvent :=
  match room.tableState with
  | none => (room, [])
  | some ts =>
    let ts1 := { ts with currentRound := ts.currentRound + 1
                         roundPhase := RoundPhase.pre_round
                         phaseStartTime := now }
    -- Reset player round state
    let players1 := room.players.map (fun p =>
      { p with bidStartTime := none, bidEndTime := none
               currentBidMs := 0, hasReleasedThisRound := false })
    ({ room with tableState := some ts1, players := players1 },
     [OutEvent.broadcastExcept none
        (ServerMessage.roundStart ts1.currentRound ts.settings.numRounds
          (now + PRE_ROUND_COUNTDOWN_MS)),
      OutEvent.setAlarm (now + PRE_ROUND_COUNTDOWN_MS)])

/-- The lobby-cleanup sweep at the end of GameRoom.alarm: players
disconnected while the table is still in the lobby are removed. -/
def alarmCleanup (room : Room) : Room × List OutEvent :=
  match room.tableState with
  | none => (room, [])
  | some ts =>
    if ts.status = TableStatus.lobby then
      let gone := room.players.filter (fun p => ¬ p.isConnected)
      ({ room with players := room.players.filter (fun p => p.isConnected) },
       gone.map (fun p => OutEvent.broadcastExcept none (ServerMessage.playerLeft p.id)))
    else (room, [])

/-- The host-reassignment sweep at the end of GameRoom.alarm. -/
def alarmReassignHost (room : Room) : Room × List OutEvent :=
  match room.tableState with
  | none => (room, [])
  | some ts =>
    let hostMissing :=
      match ts.hostId with
      | none => true
      | some hid => ¬ room.players.any (fun p => p.id == hid)
    if hostMissing then
      match room.players.find? (fun p => p.isConnected) with
      | some firstPlayer =>
        let players1 := updatePlayer room.players firstPlayer.id
          (fun p => { p with isHost := true })
        let ts1 := { ts with hostId := some firstPlayer.id }
        let room1 := { room with tableState := some ts1, players := players1 }
        (room1, [OutEvent.broadcastExcept none (lobbyStateMsg room1 ts1)])
      | none => (room, [])
    else (room, [])

/-- GameRoom.alarm. -/
def alarm (room : Room) (now : Int) : Room × List OutEvent :=
  match room.tableState with
  | none => (room, [])
  | some ts =>
    -- Handle round phase transitions
    let step1 :=
      if ts.status = TableStatus.playing then
        match ts.roundPhase with
        | RoundPhase.pre_round =>
          -- Pre-round countdown finished, start grace period
          let ts1 := { ts with roundPhase := RoundPhase.grace_period
                               phaseStartTime := now }
          ({ room with tableState := some ts1 },
           [OutEvent.broadcastExcept none
              (ServerMessage.roundActive (now + ts.settings.gracePeriodMs)),
            OutEvent.setAlarm (now + ts.settings.gracePeriodMs)])
        | RoundPhase.grace_period =>
          -- Grace period ended; phaseStartTime is left unchanged
          let ts1 := { ts with roundPhase := RoundPhase.bidding }
          let roomB := { room with tableState := some ts1 }
          let res := checkRoundEnd roomB now
          (res.1, OutEvent.broadcastExcept none ServerMessage.graceExpired :: res.2)
        | RoundPhase.resolution =>
          if ts.currentRound ≥ ts.settings.numRounds then endGame room
          else startNextRound room now
        | RoundPhase.bidding => (room, [])
      else (room, [])
    -- Clean up disconnected players after reconnect window
    let step2 := alarmCleanup step1.1
    -- Assign new host if needed
    let step3 := alarmReassignHost step2.1
    (step3.1, step1.2 ++ step2.2 ++ step3.2)

/-- GameRoom.handleMessage: dispatch on the client message type. -/
def handleMessage (room : Room) (conn : Nat) (msg : ClientMessage) (now : Int)
    (freshId : String) (freshToken : String) (hashFn : String → String) :
    Room × List OutEvent :=
  match msg with
  | ClientMessage.join playerName password reconnectToken =>
    handleJoin room conn playerName password reconnectToken now freshId freshToken hashFn
  | ClientMessage.ready isReady => handleReady room conn isReady
  | ClientMessage.startGame => handleStartGame room conn now
  | ClientMessage.bidStart clientTimestamp => handleBidStart room conn clientTimestamp now
  | ClientMessage.bidEnd clientTimestamp => handleBidEnd room conn clientTimestamp now
  | ClientMessage.kick playerId => handleKick room conn playerId
  | ClientMessage.ping => (room, [OutEvent.sendTo conn (ServerMessage.pong now)])
  | ClientMessage.leave => handleLeave room conn

/-! ### Secrecy observations for the reconnect token -/

/-- The reconnect tokens literally contained in a server message.  By the
shape of the shared types, only the welcome variant carries one: the
Player record (toPlayerInfo) used by every state broadcast has no
reconnectToken field. -/
def secretsIn : ServerMessage → List String
  | ServerMessage.welcome _ tok _ => [tok]
  | _ => []

/-- The reconnect tokens carried by an output effect. -/
def eventSecrets : OutEvent → List String
  | OutEvent.sendTo _ m => secretsIn m
  | OutEvent.broadcastExcept _ m => secretsIn m
  | _ => []

/-! ### Derived views used to state properties of the resolution pass -/

/-- The per-player bank effect of the endRound loop body. -/
def deductPlayer (p : PlayerSession) : PlayerSession :=
  if p.currentBidMs > 0 then
    { p with timeRemainingMs := max 0 (p.timeRemainingMs - p.currentBidMs) }
  else p

/-- The per-player result entry pushed by the endRound loop body. -/
def bidEntry (p : PlayerSession) : PlayerRoundResult :=
  { playerId := p.id
    displayName := p.displayName
    bidMs := p.currentBidMs
    participated := p.currentBidMs > 0 }

/-- A standing with its rank forgotten, for permutation and stability
statements about the rank-assignment pass. -/
def unrank (s : FinalStanding) : FinalStanding :=
  { s with rank := 0 }

/-! ### Concrete fixtures used by counterexamples and witnesses -/

/-- Default-valued table settings: 600000 ms starting bank, 10 rounds,
8 max players, 5000 ms grace. -/
def exSettings : TableSettings :=
  { tableName := "t", startingTimeMs := 600000, numRounds := 10, maxPlayers := 8,
    gracePeriodMs := 5000, hasPassword := false }

/-- A session fixture: id, bank, current bid, connected flag, released
flag, open bid start. -/
def mkSession (id : String) (bank : Int) (bid : Int) (conn : Bool) (rel : Bool)
    (bst : Option Int) : PlayerSession :=
  { id := id, displayName := id, reconnectToken := "tok" ++ id, isHost := id = "A",
    isReady := true, isConnected := conn, timeRemainingMs := bank, victoryPoints := 0,
    lastWinRound := none, bidStartTime := bst, bidEndTime := none, currentBidMs := bid,
    hasReleasedThisRound := rel }

/-- A playing table whose grace period started at time 10000. -/
def exGraceTable : TableState :=
  { tableId := "T", hostToken := "h", passwordHash := none, settings := exSettings,
    status := TableStatus.playing, hostId := some "A", currentRound := 1,
    roundPhase := RoundPhase.grace_period, phaseStartTime := 10000, roundHistory := [] }

/-- The same table already in the bidding phase. -/
def exBidTable : TableState := { exGraceTable with roundPhase := RoundPhase.bidding }

/-- C1 fixture: player A holds from the start of grace, player B released
during grace. -/
def exRoomGrace : Room :=
  { tableState := some exGraceTable,
    players := [mkSession "A" 600000 0 true false (some 10000),
                mkSession "B" 600000 0 true true none],
    sockets := [⟨1, some "A"⟩, ⟨2, some "B"⟩] }

/-- C2 fixture: registry order A (bid 300 ms) then B (bid 250 ms), both
released. -/
def exRoomDesc : Room :=
  { tableState := some exBidTable,
    players := [mkSession "A" 600000 300 true true none,
                mkSession "B" 600000 250 true true none],
    sockets := [⟨1, some "A"⟩, ⟨2, some "B"⟩] }

/-- The same two bids in the opposite registry order. -/
def exRoomAsc : Room :=
  { tableState := some exBidTable,
    players := [mkSession "B" 600000 250 true true none,
                mkSession "A" 600000 300 true true none],
    sockets := [⟨1, some "A"⟩, ⟨2, some "B"⟩] }

/-- C3 fixture: A and B have released, C is still mid-bid. -/
def exRoomDisc : Room :=
  { tableState := some exBidTable,
    players := [mkSession "A" 600000 1000 true true none,
                mkSession "B" 600000 2000 true true none,
                mkSession "C" 600000 0 true false (some 10000)],
    sockets := [⟨1, some "A"⟩, ⟨2, some "B"⟩, ⟨3, some "C"⟩] }

/-- C3 witness fixture: C already disconnected mid-bid, B released, A
still mid-bid on socket 1. -/
def exRoomDisc2 : Room :=
  { tableState := some exBidTable,
    players := [mkSession "A" 600000 0 true false (some 10000),
                mkSession "B" 600000 2000 true true none,
                mkSession "C" 600000 0 false false (some 10000)],
    sockets := [⟨1, some "A"⟩, ⟨2, some "B"⟩, ⟨3, some "C"⟩] }

/-- C5 fixture: participant A bids 200 ms with only 100 ms left in the
bank; B does not participate. -/
def exRoomClamp : Room :=
  { tableState := some exBidTable,
    players := [mkSession "A" 100 200 true true none,
                mkSession "B" 600000 0 true true none],
    sockets := [⟨1, some "A"⟩, ⟨2, some "B"⟩] }

/-- C6 fixture: a password-protected playing table with one disconnected
session holding reconnect token "tokA", and a fresh unauthenticated
socket 5. -/
def exRoomPw : Room :=
  { tableState := some { exBidTable with passwordHash := some "HH" },
    players := [mkSession "A" 600000 0 false true none],
    sockets := [⟨5, none⟩] }

/-- C4 fixture: a playing table where host A kicks B. -/
def exRoomKick : Room :=
  { tableState := some exBidTable,
    players := [mkSession "A" 600000 0 true true none,
                mkSession "B" 555000 0 true true none],
    sockets := [⟨1, some "A"⟩, ⟨2, some "B"⟩] }

/-- C7 witness fixture: three players fully tied on all three sort keys. -/
def exTied : List PlayerSession :=
  [mkSession "A" 5 0 true true none,
   mkSession "B" 5 0 true true none,
   mkSession "C" 5 0 true true none]

/-- C10 fixture: A has already released this round (with a recorded bid)
but holds no open bid. -/
def exRoomRebid : Room :=
  { tableState := some exBidTable,
    players := [mkSession "A" 600000 700 true true none,
                mkSession "B" 600000 0 true false (some 10000)],
    sockets := [⟨1, some "A"⟩, ⟨2, some "B"⟩] }

/-- C10 fixture after the re-bid: A holds an open bid started at 16000
with a previously recorded bid of 700 ms. -/
def exRoomRebid2 : Room :=
  { tableState := some exBidTable,
    players := [mkSession "A" 600000 700 true true (some 16000),
                mkSession "B" 600000 0 true false (some 10000)],
    sockets := [⟨1, some "A"⟩, ⟨2, some "B"⟩] }

/-! ## Lemmas about the resolution pass -/

theorem resolveStep_done (acc : ResolveAcc) (p : PlayerSession) :
    (resolveStep acc p).done = acc.done ++ [deductPlayer p] := by
  simp only [resolveStep, deductPlayer]
  repeat' split
  all_goals simp_all

theorem resolveStep_bids (acc : ResolveAcc) (p : PlayerSession) :
    (resolveStep acc p).bids = acc.bids ++ [bidEntry p] := by
  simp only [resolveStep, bidEntry]
  repeat' split
  all_goals rfl

theorem resolveStep_maxBid (acc : ResolveAcc) (p : PlayerSession)
    (h : 0 ≤ acc.maxBid) :
    (resolveStep acc p).maxBid = max acc.maxBid p.currentBidMs := by
  simp only [resolveStep, TIE_THRESHOLD_MS]
  split_ifs with h1 h2 h3 h4 <;> dsimp only
  · exact (max_eq_right (by omega)).symm
  · exact (max_eq_right (le_of_lt h4)).symm
  · have hle : p.currentBidMs ≤ acc.maxBid := by omega
    have hge : acc.maxBid ≤ p.currentBidMs := h3.2
    exact (max_eq_left hle).symm
  · have hle : p.currentBidMs ≤ acc.maxBid := by
      by_contra hgt
      push_neg at hgt
      exact h3 ⟨by rw [abs_le]; constructor <;> omega, by omega⟩
    exact (max_eq_left hle).symm
  · exact (max_eq_left (by omega)).symm

theorem foldl_resolveStep_done :
    ∀ (l : List PlayerSession) (acc : ResolveAcc),
      (l.foldl resolveStep acc).done = acc.done ++ l.map deductPlayer
  | [], acc => by simp
  | p :: l, acc => by
    rw [List.foldl_cons, foldl_resolveStep_done l, resolveStep_done]
    simp

theorem foldl_resolveStep_bids :
    ∀ (l : List PlayerSession) (acc : ResolveAcc),
      (l.foldl resolveStep acc).bids = acc.bids ++ l.map bidEntry
  | [], acc => by simp
  | p :: l, acc => by
    rw [List.foldl_cons, foldl_resolveStep_bids l, resolveStep_bids]
    simp

theorem foldl_resolveStep_maxBid :
    ∀ (l : List PlayerSession) (acc : ResolveAcc), 0 ≤ acc.maxBid →
      (l.foldl resolveStep acc).maxBid
        = l.foldl (fun m p => max m p.currentBidMs) acc.maxBid
  | [], _, _ => rfl
  | p :: l, acc, h => by
    rw [List.foldl_cons, List.foldl_cons,
      foldl_resolveStep_maxBid l _ (by rw [resolveStep_maxBid acc p h]; omega),
      resolveStep_maxBid acc p h]

theorem updatePlayer_map_eq {β : Type} (ps : List PlayerSession) (pid : String)
    (f : PlayerSession → PlayerSession) (g : PlayerSession → β)
    (hg : ∀ p, g (f p) = g p) :
    (updatePlayer ps pid f).map g = ps.map g := by
  simp only [updatePlayer, List.map_map]
  refine List.map_congr_left (fun p _ => ?_)
  by_cases hp : p.id = pid <;> simp [hp, hg]

theorem endRound_players_char (room : Room) (ts : TableState) (now : Int)
    (h : room.tableState = some ts) :
    ∀ {β : Type} (g : PlayerSession → β),
      (∀ p, g { p with victoryPoints := p.victoryPoints + 1
                       lastWinRound := some ts.currentRound } = g p) →
      (endRound room now).1.players.map g = (room.players.map deductPlayer).map g := by
  intro β g hg
  unfold endRound
  rw [h]
  simp only
  have hdone := foldl_resolveStep_done room.players
    { bids := [], maxBid := 0, winnerId := none, winnerName := none
      tieCount := 0, done := [] }
  split
  · rw [updatePlayer_map_eq _ _ _ g hg, hdone]
    simp
  · rw [hdone]
    simp

theorem foldl_max_init_le : ∀ (l : List Int) (a : Int), a ≤ l.foldl max a
  | [], _ => le_rfl
  | x :: l, a => le_trans (le_max_left a x) (foldl_max_init_le l (max a x))

theorem mem_le_foldl_max :
    ∀ (l : List Int) (a : Int), ∀ x ∈ l, x ≤ l.foldl max a
  | y :: l, a, x, hx => by
    rcases List.mem_cons.mp hx with hx | hx
    · subst hx
      exact le_trans (le_max_right a x) (foldl_max_init_le l (max a x))
    · exact mem_le_foldl_max l (max a y) x hx

theorem foldl_max_attained :
    ∀ (l : List Int) (a : Int), l.foldl max a = a ∨ l.foldl max a ∈ l
  | [], _ => Or.inl rfl
  | x :: l, a => by
    rcases foldl_max_attained l (max a x) with h | h
    · rcases max_choice a x with hm | hm
      · exact Or.inl (by rw [List.foldl_cons, h, hm])
      · exact Or.inr (by rw [List.foldl_cons, h, hm]; exact List.mem_cons_self _ _)
    · exact Or.inr (List.mem_cons_of_mem _ h)

/-! ## C2: order-dependent tie detection -/

/-- C2 (code bug evaluation).  With registry order A (300 ms) then
B (250 ms), the two bids lie within the 100 ms tie threshold of the
maximum, yet the code records A as the sole winner and awards A a point;
with the opposite registry order the identical bids produce a tie.  This
contradicts the claim (and the Tie Handling section of ARCHITECTURE.md)
that any two bids within the threshold of the maximum nullify the
winner. -/
theorem c2_tie_failing_eval :
    ((endRound exRoomDesc 0).1.tableState.map (fun ts2 =>
        ts2.roundHistory.map (fun r => (r.winnerId, r.wasTie, r.winningBidMs))))
      = some [(some "A", false, 300)]
    ∧ ((endRound exRoomDesc 0).1.players.map (fun p => (p.id, p.victoryPoints)))
      = [("A", 1), ("B", 0)]
    ∧ |(250 : Int) - 300| ≤ TIE_THRESHOLD_MS
    ∧ ((endRound exRoomAsc 0).1.tableState.map (fun ts2 =>
        ts2.roundHistory.map (fun r => (r.winnerId, r.wasTie, r.winningBidMs))))
      = some [(none, true, 300)] := by decide

/-! ## C5: bank deduction bookkeeping -/

theorem sum_bank_deduct :
    ∀ (l : List PlayerSession),
      (∀ p ∈ l, 0 < p.currentBidMs → p.currentBidMs ≤ p.timeRemainingMs) →
      (l.map (fun p => p.timeRemainingMs)).sum
          - (l.map (fun p => (deductPlayer p).timeRemainingMs)).sum
        = ((l.filter (fun p => 0 < p.currentBidMs)).map
            (fun p => p.currentBidMs)).sum
  | [], _ => by simp
  | p :: l, h => by
    have ih := sum_bank_deduct l (fun q hq => h q (List.mem_cons_of_mem _ hq))
    by_cases hb : 0 < p.currentBidMs
    · have hle := h p (List.mem_cons_self _ _) hb
      have hd : (deductPlayer p).timeRemainingMs
          = p.timeRemainingMs - p.currentBidMs := by
        simp only [deductPlayer, if_pos hb]
        exact max_eq_right (by omega)
      rw [List.filter_cons]
      rw [if_pos (by exact decide_eq_true hb)]
      simp only [List.map_cons, List.sum_cons, hd]
      omega
    · have hd : (deductPlayer p).timeRemainingMs = p.timeRemainingMs := by
        simp only [deductPlayer, if_neg hb]
      rw [List.filter_cons]
      rw [if_neg (by simpa using hb)]
      simp only [List.map_cons, List.sum_cons, hd]
      omega

/-- C5 (counterexample).  With a participant whose bid (200 ms) exceeds
the remaining bank (100 ms), the total deducted from the banks is 100,
not the 200 sum of participant bids: the claimed equality fails in
exactly the states the claim says it includes. -/
theorem c5_clamped_sum_counterexample :
    ¬ ((exRoomClamp.players.map (fun p => p.timeRemainingMs)).sum
        - ((endRound exRoomClamp 0).1.players.map (fun p => p.timeRemainingMs)).sum
      = ((exRoomClamp.players.filter (fun p => 0 < p.currentBidMs)).map
          (fun p => p.currentBidMs)).sum) := by decide

/-- C5 (amended).  After endRound, each participant's bank is reduced by
its bid clamped at zero and every non-participant's bank is unchanged;
consequently the total deducted equals the sum of participant bids
whenever no participant's bid exceeds its remaining bank (the clamp makes
the unconditional equality fail otherwise, as the counterexample shows). -/
theorem c5_bank_conservation (room : Room) (ts : TableState) (now : Int)
    (h : room.tableState = some ts) :
    ((endRound room now).1.players.map (fun p => p.timeRemainingMs)
      = room.players.map (fun p =>
          if 0 < p.currentBidMs then max 0 (p.timeRemainingMs - p.currentBidMs)
          else p.timeRemainingMs))
    ∧ ((∀ p ∈ room.players, 0 < p.currentBidMs → p.currentBidMs ≤ p.timeRemainingMs) →
        (room.players.map (fun p => p.timeRemainingMs)).sum
          - ((endRound room now).1.players.map (fun p => p.timeRemainingMs)).sum
        = ((room.players.filter (fun p => 0 < p.currentBidMs)).map
            (fun p => p.currentBidMs)).sum) := by
  have hchar := endRound_players_char room ts now h
    (fun p => p.timeRemainingMs) (fun p => rfl)
  have hmap : (room.players.map deductPlayer).map (fun p => p.timeRemainingMs)
      = room.players.map (fun p =>
          if 0 < p.currentBidMs then max 0 (p.timeRemainingMs - p.currentBidMs)
          else p.timeRemainingMs) := by
    rw [List.map_map]
    refine List.map_congr_left (fun p _ => ?_)
    simp only [Function.comp, deductPlayer, gt_iff_lt]
    by_cases hb : 0 < p.currentBidMs <;> simp [hb]
  refine ⟨by rw [hchar, hmap], fun hle => ?_⟩
  rw [hchar]
  rw [List.map_map]
  exact sum_bank_deduct room.players hle

/-- C5 witness: the amended theorem applied to a round where both
participants can afford their bids. -/
theorem c5_bank_conservation_witness :
    (exRoomDesc.players.map (fun p => p.timeRemainingMs)).sum
      - ((endRound exRoomDesc 0).1.players.map (fun p => p.timeRemainingMs)).sum
      = ((exRoomDesc.players.filter (fun p => 0 < p.currentBidMs)).map
          (fun p => p.currentBidMs)).sum :=
  (c5_bank_conservation exRoomDesc exBidTable 0 rfl).2 (by decide)

/-! ## C8: the recorded winning bid is the maximum recorded bid -/

/-- C8 (confirmed).  Every RoundResult appended by endRound records as
winningBidMs the maximum bid duration over its playerResults entries
(0 when no player bid), independently of tie status: it is an upper bound
of all recorded bids and is either attained by some entry or zero. -/
theorem c8_winning_bid_is_max (room : Room) (ts : TableState) (now : Int)
    (h : room.tableState = some ts)
    (_hnn : ∀ p ∈ room.players, 0 ≤ p.currentBidMs) :
    ∃ ts2, (endRound room now).1.tableState = some ts2 ∧
      ∃ r, ts2.roundHistory = ts.roundHistory ++ [r] ∧
        r.winningBidMs
          = (r.playerResults.map (fun e => e.bidMs)).foldl max 0
        ∧ (∀ e ∈ r.playerResults, e.bidMs ≤ r.winningBidMs)
        ∧ (r.winningBidMs = 0 ∨ ∃ e ∈ r.playerResults, e.bidMs = r.winningBidMs) := by
  unfold endRound
  rw [h]
  simp only
  refine ⟨_, rfl, _, rfl, ?_⟩
  have hbids := foldl_resolveStep_bids room.players
    { bids := [], maxBid := 0, winnerId := none, winnerName := none
      tieCount := 0, done := [] }
  have hmax := foldl_resolveStep_maxBid room.players
    { bids := [], maxBid := 0, winnerId := none, winnerName := none
      tieCount := 0, done := [] } le_rfl
  have hfold : (room.players.foldl resolveStep
      { bids := [], maxBid := 0, winnerId := none, winnerName := none
        tieCount := 0, done := [] }).maxBid
      = ((room.players.foldl resolveStep
          { bids := [], maxBid := 0, winnerId := none, winnerName := none
            tieCount := 0, done := [] }).bids.map (fun e => e.bidMs)).foldl max 0 := by
    rw [hbids, hmax]
    simp only [List.nil_append, List.map_map]
    rw [List.foldl_map]
    rfl
  refine ⟨hfold, ?_, ?_⟩
  · intro e he
    rw [hfold]
    exact mem_le_foldl_max _ 0 e.bidMs (List.mem_map_of_mem _ he)
  · rw [hfold]
    rcases foldl_max_attained (((room.players.foldl resolveStep
        { bids := [], maxBid := 0, winnerId := none, winnerName := none
          tieCount := 0, done := [] }).bids.map (fun e => e.bidMs))) 0 with h0 | hmem
    · exact Or.inl h0
    · rcases List.mem_map.mp hmem with ⟨e, he, heq⟩
      exact Or.inr ⟨e, he, heq⟩

/-! ## C1: the grace-period clip -/

/-- C1 (code bug evaluation).  The grace-to-bidding alarm transition
leaves phaseStartTime at the grace START time (10000), so handleBidEnd
computes the effective bid from the grace start rather than the grace
end: a player holding from the start of a 5000 ms grace period who
releases 5200 ms later records a 5200 ms bid and a 594800 bank — not the
200 ms bid and 599800 bank the claim (and the source comment "Only count
time after grace period") prescribe. -/
theorem c1_grace_clip_failing_eval :
    ((alarm exRoomGrace 15000).1.tableState.map
        (fun t => (t.roundPhase, t.phaseStartTime)))
      = some (RoundPhase.bidding, 10000)
    ∧ ((handleBidEnd (alarm exRoomGrace 15000).1 1 15200 15200).1.players.map
        (fun p => (p.id, p.currentBidMs, p.timeRemainingMs, p.victoryPoints)))
      = [("A", 5200, 594800, 1), ("B", 0, 600000, 0)]
    ∧ ¬ ((handleBidEnd (alarm exRoomGrace 15000).1 1 15200 15200).1.players.map
        (fun p => (p.id, p.timeRemainingMs)))
      = [("A", 599800), ("B", 600000)] := by decide

/-! ## C3: disconnects and round completion -/

theorem checkRoundEnd_advances (room : Room) (ts : TableState) (now : Int)
    (hts : room.tableState = some ts)
    (hph : ts.roundPhase = RoundPhase.bidding)
    (hall : ∀ p ∈ room.players, p.isConnected = true →
      (p.hasReleasedThisRound = true ∨ p.bidStartTime = none)) :
    ((checkRoundEnd room now).1.tableState.map (fun t => t.roundPhase))
      = some RoundPhase.resolution := by
  unfold checkRoundEnd
  rw [hts]
  simp only
  rw [if_neg (by simp [hph])]
  have hall2 : ((room.players.filter (fun p => p.isConnected)).all
      (fun p => p.hasReleasedThisRound || p.bidStartTime == none)) = true := by
    rw [List.all_eq_true]
    intro q hq
    rw [List.mem_filter] at hq
    rcases hall q hq.1 hq.2 with h | h
    · simp [h]
    · simp [h]
  rw [if_pos hall2]
  unfold endRound
  rw [hts]
  simp

/-- C3 (counterexample to the claim as stated).  Three players, A and B
released, C mid-bid: processing the disconnect of C leaves the phase at
bidding with no round appended, although afterwards every connected
player has released — the disconnect event does not trigger the
round-completion check. -/
theorem c3_disconnect_no_advance :
    ((webSocketClose exRoomDisc 3 20000).1.tableState.map (fun t => t.roundPhase))
      = some RoundPhase.bidding
    ∧ (((webSocketClose exRoomDisc 3 20000).1.players.filter
          (fun p => p.isConnected)).all
        (fun p => p.hasReleasedThisRound || p.bidStartTime == none)) = true
    ∧ ((webSocketClose exRoomDisc 3 20000).1.tableState.map
        (fun t => t.roundHistory.length)) = some 0 := by decide

/-- C3 (amended).  The round-completion check runs when a release is
processed (and on grace expiry), and it ignores disconnected players: if
the phase is bidding and every other currently connected player has
released or never started a bid, processing a release advances the round
to resolution — so a player who disconnected mid-bid does not block the
round once the remaining connected players release.  The disconnect
event itself, however, does not trigger the check (see the
counterexample). -/
theorem c3_release_advances (room : Room) (ts : TableState) (s : PlayerSession)
    (conn : Nat) (cts now bst : Int)
    (hts : room.tableState = some ts)
    (hph : ts.roundPhase = RoundPhase.bidding)
    (hs : getSessionFromWs room conn = some s)
    (hst : s.bidStartTime = some bst)
    (hrel : ∀ p ∈ room.players, p.isConnected = true → p.id ≠ s.id →
      (p.hasReleasedThisRound = true ∨ p.bidStartTime = none)) :
    ((handleBidEnd room conn cts now).1.tableState.map (fun t => t.roundPhase))
      = some RoundPhase.resolution := by
  unfold handleBidEnd
  rw [hs, hts]
  dsimp only
  rw [hst]
  dsimp only
  refine checkRoundEnd_advances _ ts now rfl hph ?_
  intro q hq hconn
  simp only [updatePlayer, List.mem_map] at hq
  obtain ⟨p, hp, rfl⟩ := hq
  by_cases hid : p.id = s.id
  · rw [if_pos hid]
    left
    rfl
  · rw [if_neg hid]
    rw [if_neg hid] at hconn
    exact hrel p hp hconn hid

/-- C3 witness: with C already disconnected mid-bid and B released, the
release of A advances the round to resolution. -/
theorem c3_release_advances_witness :
    ((handleBidEnd exRoomDisc2 1 16500 16500).1.tableState.map
        (fun t => t.roundPhase)) = some RoundPhase.resolution :=
  c3_release_advances exRoomDisc2 exBidTable
    (mkSession "A" 600000 0 true false (some 10000)) 1 16500 16500 10000
    rfl rfl (by decide) (by decide) (by decide)

/-! ## C4: kick after game start -/

/-- C4 (counterexample to the claim as stated).  On a table whose status
is playing, a host kick of player B deletes the session from the
registry (bank and game state included) instead of merely disconnecting
it. -/
theorem c4_kick_removes_when_playing :
    ((handleKick exRoomKick 1 "B").1.players.map (fun p => p.id)) = ["A"]
    ∧ (exRoomKick.tableState.map (fun t => t.status)) = some TableStatus.playing
    ∧ findPlayer (handleKick exRoomKick 1 "B").1.players "B" = none := by decide

/-- C4 (amended).  A host-invoked kick of another existing player removes
that session from the registry regardless of the table status; only the
voluntary leave is lobby-conditional — a leave while the status is not
lobby merely disconnects, preserving every session id, bank and victory
point count. -/
theorem c4_kick_leave_amended (room : Room) (ts : TableState) (s : PlayerSession)
    (conn : Nat) (targetId : String)
    (hts : room.tableState = some ts)
    (hs : getSessionFromWs room conn = some s)
    (hhost : s.isHost = true)
    (hne : ¬ targetId = s.id)
    (htgt : (findPlayer room.players targetId).isSome = true) :
    findPlayer (handleKick room conn targetId).1.players targetId = none
    ∧ (ts.status ≠ TableStatus.lobby →
        (handleLeave room conn).1.players.map
            (fun p => (p.id, p.timeRemainingMs, p.victoryPoints))
          = room.players.map (fun p => (p.id, p.timeRemainingMs, p.victoryPoints))) := by
  constructor
  · unfold handleKick
    rw [hs, hts]
    simp only
    rw [if_neg (by simp [hhost])]
    rw [if_neg hne]
    obtain ⟨t, ht⟩ := Option.isSome_iff_exists.mp htgt
    rw [ht]
    simp only [findPlayer, List.find?_eq_none]
    intro x hx
    rw [List.mem_filter] at hx
    simpa using hx.2
  · intro hstat
    unfold handleLeave
    rw [hs]
    simp only
    rw [hts]
    simp only
    rw [if_neg hstat]
    exact updatePlayer_map_eq _ _ _ _ (fun p => rfl)

/-- C4 witness: the amended behaviour on the concrete playing table. -/
theorem c4_kick_leave_amended_witness :
    findPlayer (handleKick exRoomKick 1 "B").1.players "B" = none
    ∧ ((handleLeave exRoomKick 1).1.players.map
          (fun p => (p.id, p.timeRemainingMs, p.victoryPoints))
        = exRoomKick.players.map (fun p => (p.id, p.timeRemainingMs, p.victoryPoints))) := by
  have h := c4_kick_leave_amended exRoomKick exBidTable
    (mkSession "A" 600000 0 true true none) 1 "B"
    rfl (by decide) (by decide) (by decide) (by decide)
  exact ⟨h.1, h.2 (by decide)⟩

/-! ## C6: reconnection via the secret -/

/-- C6 (counterexample to the claim as stated).  On a password-protected
table, a join carrying a valid reconnect secret but no password is
rejected with InvalidPassword and the session stays disconnected,
because the password check precedes the reconnect check — the claim
says the secret reattaches regardless of whether a password is
configured. -/
theorem c6_password_blocks_reconnect :
    (handleJoin exRoomPw 5 "A" none (some "tokA") 99 "fid" "ftok" (fun s => s)).2
      = [OutEvent.sendTo 5
          (ServerMessage.error ErrorCode.INVALID_PASSWORD "Password required")]
    ∧ ((handleJoin exRoomPw 5 "A" none (some "tokA") 99 "fid" "ftok"
        (fun s => s)).1.players.map (fun p => (p.id, p.isConnected)))
      = [("A", false)]
    ∧ (exRoomPw.players.find? (fun p => p.reconnectToken == "tokA")).isSome = true := by
  decide

/-- C6 (amended).  Provided the password gate passes (no password is
configured, or the join carries the correct password), a join whose
reconnect secret matches an existing session reattaches that session
regardless of table phase: every player keeps the same id, bank and
victory points (no new identity is created), the matched session is
marked connected, and the welcome reply restores that session id and
secret. -/
theorem c6_reconnect_reattaches (room : Room) (ts : TableState) (conn : Nat)
    (playerName : String) (password : Option String) (tok : String)
    (player : PlayerSession) (now : Int) (freshId freshToken : String)
    (hashFn : String → String)
    (hts : room.tableState = some ts)
    (hpw : ts.passwordHash = none ∨
      ∃ pw storedHash, password = some pw ∧ ts.passwordHash = some storedHash ∧
        hashFn pw = storedHash)
    (hfind : room.players.find? (fun p => p.reconnectToken == tok) = some player) :
    ((handleJoin room conn playerName password (some tok) now freshId freshToken
        hashFn).1.players.map (fun p => (p.id, p.timeRemainingMs, p.victoryPoints))
      = room.players.map (fun p => (p.id, p.timeRemainingMs, p.victoryPoints)))
    ∧ (∀ q ∈ (handleJoin room conn playerName password (some tok) now freshId
        freshToken hashFn).1.players, q.id = player.id → q.isConnected = true)
    ∧ (handleJoin room conn playerName password (some tok) now freshId freshToken
        hashFn).2.head?
      = some (OutEvent.sendTo conn
          (ServerMessage.welcome player.id player.reconnectToken now)) := by
  have hbranch : handleJoin room conn playerName password (some tok) now freshId
      freshToken hashFn
      = handleJoinAfterPassword room conn playerName (some tok) now freshId
          freshToken ts := by
    unfold handleJoin
    rw [hts]
    dsimp only
    rcases hpw with hnone | ⟨pw, storedHash, hp, hsh, hhash⟩
    · rw [hnone]
    · rw [hp, hsh]
      dsimp only
      rw [if_neg (by simp [hhash])]
  rw [hbranch]
  unfold handleJoinAfterPassword
  rw [show ((some tok).bind fun tok =>
      room.players.find? (fun p => p.reconnectToken == tok)) = some player from hfind]
  dsimp only
  refine ⟨updatePlayer_map_eq _ _ _ _ (fun p => rfl), ?_, rfl⟩
  intro q hq hid
  simp only [updatePlayer, List.mem_map] at hq
  obtain ⟨p, hp, rfl⟩ := hq
  by_cases hpid : p.id = player.id
  · rw [if_pos hpid]
  · rw [if_neg hpid] at hid ⊢
    exact absurd hid hpid

/-- C6 witness: reconnection on the password-protected playing table with
the correct password and a matching secret. -/
theorem c6_reconnect_reattaches_witness :
    ((handleJoin exRoomPw 5 "Z" (some "x") (some "tokA") 99 "fid" "ftok"
        (fun _ => "HH")).1.players.map (fun p => (p.id, p.timeRemainingMs, p.victoryPoints))
      = exRoomPw.players.map (fun p => (p.id, p.timeRemainingMs, p.victoryPoints)))
    ∧ (handleJoin exRoomPw 5 "Z" (some "x") (some "tokA") 99 "fid" "ftok"
        (fun _ => "HH")).2.head?
      = some (OutEvent.sendTo 5 (ServerMessage.welcome "A" "tokA" 99)) := by
  have h := c6_reconnect_reattaches exRoomPw
    { exBidTable with passwordHash := some "HH" } 5 "Z" (some "x") "tokA"
    (mkSession "A" 600000 0 false true none) 99 "fid" "ftok" (fun _ => "HH")
    rfl (Or.inr ⟨"x", "HH", rfl, rfl, rfl⟩) (by decide)
  exact ⟨h.1, h.2.2.trans (by decide)⟩

/-! ## C10: re-bidding after a release -/

/-- C10 (confirmed).  During grace_period or bidding, bidStart only
requires that no bid is in progress: a player whose released-this-round
flag is already set is accepted and gets a fresh latency-adjusted start
time; and a subsequent bidEnd overwrites the previously recorded bid
duration with the newly computed one, whatever the old value was. -/
theorem c10_rebid_allowed (room : Room) (ts : TableState) (s : PlayerSession)
    (conn : Nat) (cts now : Int)
    (hts : room.tableState = some ts)
    (hs : getSessionFromWs room conn = some s)
    (hplay : ts.status = TableStatus.playing)
    (hph : ts.roundPhase = RoundPhase.grace_period ∨ ts.roundPhase = RoundPhase.bidding)
    (hnobid : s.bidStartTime = none)
    (_hrel : s.hasReleasedThisRound = true) :
    ((handleBidStart room conn cts now).1.players
        = updatePlayer room.players s.id (fun p =>
            { p with
                bidStartTime := some (now - min (abs (now - cts)) MAX_LATENCY_COMPENSATION_MS) }))
    ∧ ((handleBidStart room conn cts now).2
        = [OutEvent.broadcastExcept none (ServerMessage.bidUpdate s.id true 0)])
    ∧ (∀ (room2 : Room) (ts2 : TableState) (s2 : PlayerSession) (cts2 now2 bst : Int),
        room2.tableState = some ts2 →
        getSessionFromWs room2 conn = some s2 →
        s2.bidStartTime = some bst →
        ∀ q ∈ (handleBidEnd room2 conn cts2 now2).1.players, q.id = s2.id →
          q.currentBidMs =
            (if ¬ ts2.roundPhase = RoundPhase.bidding then 0
             else max 0 ((now2 - min |now2 - cts2| MAX_LATENCY_COMPENSATION_MS)
               - max bst ts2.phaseStartTime))) := by
  have hstart : handleBidStart room conn cts now
      = ({ room with players := updatePlayer room.players s.id (fun p =>
            { p with
                bidStartTime := some (now - min (abs (now - cts)) MAX_LATENCY_COMPENSATION_MS) }) },
         [OutEvent.broadcastExcept none (ServerMessage.bidUpdate s.id true 0)]) := by
    unfold handleBidStart
    rw [hs, hts]
    dsimp only
    rw [if_neg (by simp [hplay])]
    rw [if_neg (by rcases hph with h | h <;> simp [h])]
    rw [if_neg (by simp [hnobid])]
  refine ⟨by rw [hstart], by rw [hstart], ?_⟩
  intro room2 ts2 s2 cts2 now2 bst hts2 hs2 hst2 q hq hid
  revert hq
  unfold handleBidEnd
  rw [hs2, hts2]
  dsimp only
  rw [hst2]
  dsimp only
  intro hq
  -- q is a member of the players of the checkRoundEnd result, whose
  -- (id, currentBidMs) pairs agree with the updated registry
  have hpairs : ∀ (r : Room) (tsr : TableState) (n : Int), r.tableState = some tsr →
      (checkRoundEnd r n).1.players.map (fun p => (p.id, p.currentBidMs))
        = r.players.map (fun p => (p.id, p.currentBidMs)) := by
    intro r tsr n htsr
    unfold checkRoundEnd
    rw [htsr]
    dsimp only
    split
    · rfl
    · split
      · exact endRound_players_char r tsr n htsr
          (fun p => (p.id, p.currentBidMs)) (fun p => rfl)
          |>.trans (by
            rw [List.map_map]
            refine List.map_congr_left (fun p _ => ?_)
            simp only [Function.comp, deductPlayer]
            split <;> rfl)
      · rfl
  have hpairs' : ∀ (r : Room) (tsr : TableState) (n : Int), r.tableState = some tsr →
      ∀ x ∈ (checkRoundEnd r n).1.players,
        (x.id, x.currentBidMs) ∈ r.players.map (fun p => (p.id, p.currentBidMs)) :=
    fun r tsr n htsr x hx =>
      (hpairs r tsr n htsr) ▸ List.mem_map_of_mem _ hx
  have hm := hpairs' _ ts2 now2 rfl q hq
  dsimp only at hm
  simp only [updatePlayer, List.map_map, List.mem_map, Function.comp] at hm
  obtain ⟨p, _, hpq⟩ := hm
  by_cases hpid : p.id = s2.id
  · rw [if_pos hpid] at hpq
    exact (congrArg Prod.snd hpq).symm
  · rw [if_neg hpid] at hpq
    have : q.id = p.id := congrArg Prod.fst hpq.symm
    rw [hid] at this
    exact absurd this.symm hpid

/-- C10 witness: A, already released with a 700 ms recorded bid, starts a
new bid; then release of the open bid overwrites the recorded duration. -/
theorem c10_rebid_allowed_witness :
    ((handleBidStart exRoomRebid 1 16000 16000).1.players
        = updatePlayer exRoomRebid.players "A" (fun p =>
            { p with
                bidStartTime := some ((16000 : Int) - min (abs ((16000 : Int) - 16000)) MAX_LATENCY_COMPENSATION_MS) }))
    ∧ (∀ q ∈ (handleBidEnd exRoomRebid2 1 17000 17000).1.players, q.id = "A" →
        q.currentBidMs =
          (if ¬ exBidTable.roundPhase = RoundPhase.bidding then 0
           else max 0 (((17000 : Int) - min |(17000 : Int) - 17000| MAX_LATENCY_COMPENSATION_MS)
             - max 16000 exBidTable.phaseStartTime))) := by
  have h := c10_rebid_allowed exRoomRebid exBidTable
    (mkSession "A" 600000 700 true true none) 1 16000 16000
    rfl (by decide) rfl (Or.inr rfl) (by decide) (by decide)
  exact ⟨h.1, h.2.2 exRoomRebid2 exBidTable
    (mkSession "A" 600000 700 true true (some 16000)) 17000 17000 16000
    rfl (by decide) (by decide)⟩

/-- C8 witness: the winning-bid-is-maximum property evaluated on a tied
round (winner fields null) with recorded bids 300 and 250. -/
theorem c8_winning_bid_is_max_witness :
    ∃ ts2, (endRound exRoomAsc 0).1.tableState = some ts2 ∧
      ∃ r, ts2.roundHistory = exBidTable.roundHistory ++ [r] ∧
        r.winningBidMs
          = (r.playerResults.map (fun e => e.bidMs)).foldl max 0
        ∧ (∀ e ∈ r.playerResults, e.bidMs ≤ r.winningBidMs)
        ∧ (r.winningBidMs = 0 ∨ ∃ e ∈ r.playerResults, e.bidMs = r.winningBidMs) :=
  c8_winning_bid_is_max exRoomAsc exBidTable 0 rfl (by decide)

/-! ## C7: final standings -/

theorem standingsCmp_swap (a b : FinalStanding) :
    standingsCmp b a = -standingsCmp a b := by
  unfold standingsCmp
  split_ifs <;> omega

theorem standingsCmp_le_iff (a b : FinalStanding) :
    standingsCmp a b ≤ 0 ↔
      (b.victoryPoints < a.victoryPoints ∨ (b.victoryPoints = a.victoryPoints ∧
        (b.timeRemainingMs < a.timeRemainingMs ∨ (b.timeRemainingMs = a.timeRemainingMs ∧
          b.lastWinRound.getD 0 ≤ a.lastWinRound.getD 0)))) := by
  unfold standingsCmp
  split_ifs <;> omega

theorem standingsLe_total (a b : FinalStanding) :
    standingsLe a b || standingsLe b a := by
  simp only [standingsLe, standingsCmp_swap a b, Bool.or_eq_true, decide_eq_true_eq]
  omega

theorem standingsLe_trans (a b c : FinalStanding) :
    standingsLe a b → standingsLe b c → standingsLe a c := by
  simp only [standingsLe, decide_eq_true_eq, standingsCmp_le_iff]
  omega

theorem mem_assignRanks :
    ∀ (i : Nat) (l : List FinalStanding) (b : FinalStanding),
      b ∈ assignRanks i l → ∃ t ∈ l, ∃ j : Nat, b = { t with rank := j }
  | _, [], b, hb => by simp [assignRanks] at hb
  | i, s :: rest, b, hb => by
    rcases List.mem_cons.mp hb with h | h
    · exact ⟨s, List.mem_cons_self _ _, i + 1, h⟩
    · obtain ⟨t, ht, j, hj⟩ := mem_assignRanks (i + 1) rest b h
      exact ⟨t, List.mem_cons_of_mem _ ht, j, hj⟩

theorem assignRanks_pairwise
    (R : FinalStanding → FinalStanding → Prop)
    (hR : ∀ (a b : FinalStanding) (i j : Nat),
      R a b → R { a with rank := i } { b with rank := j }) :
    ∀ (i : Nat) (l : List FinalStanding),
      l.Pairwise R → (assignRanks i l).Pairwise R
  | _, [], _ => List.Pairwise.nil
  | i, s :: rest, h => by
    obtain ⟨hhead, htail⟩ := List.pairwise_cons.mp h
    refine List.Pairwise.cons ?_ (assignRanks_pairwise R hR (i + 1) rest htail)
    intro b hb
    obtain ⟨t, ht, j, rfl⟩ := mem_assignRanks (i + 1) rest b hb
    exact hR s t (i + 1) j (hhead t ht)

theorem assignRanks_map_rank :
    ∀ (i : Nat) (l : List FinalStanding),
      (assignRanks i l).map (fun s => s.rank) = List.range' (i + 1) l.length
  | _, [] => rfl
  | i, s :: rest => by
    simp only [assignRanks, List.map_cons, List.length_cons, List.range'_succ]
    exact congrArg _ (assignRanks_map_rank (i + 1) rest)

theorem assignRanks_map_unrank :
    ∀ (i : Nat) (l : List FinalStanding),
      (assignRanks i l).map unrank = l.map unrank
  | _, [] => rfl
  | i, s :: rest => by
    simp only [assignRanks, List.map_cons]
    exact congrArg _ (assignRanks_map_unrank (i + 1) rest)

/-- C7 (confirmed).  The final standings list is sorted by victory points
descending, then remaining bank descending, then last-win round
descending (a missing last win counting as round 0, via standingsCmp);
the assigned ranks are exactly 1..N; forgetting ranks it is a permutation
of the per-player standings; and the sort is stable with respect to
registry iteration order: any two entries tied on all three keys keep
their relative registry order. -/
theorem c7_final_standings (players : List PlayerSession) :
    ((finalStandings players).Pairwise (fun a b => standingsLe a b = true))
    ∧ ((finalStandings players).map (fun s => s.rank)
        = List.range' 1 players.length)
    ∧ List.Perm ((finalStandings players).map unrank) (players.map toStanding)
    ∧ (∀ a b : FinalStanding, [a, b].Sublist (players.map toStanding) →
        standingsCmp a b = 0 →
        [a, b].Sublist ((finalStandings players).map unrank)) := by
  have trans := fun (x y z : FinalStanding) => standingsLe_trans x y z
  have total := standingsLe_total
  have hfs : finalStandings players
      = assignRanks 0 ((players.map toStanding).mergeSort standingsLe) := rfl
  have hsort : ((players.map toStanding).mergeSort standingsLe).Pairwise
      (fun a b => standingsLe a b = true) :=
    List.sorted_mergeSort trans total (players.map toStanding)
  have hperm : List.Perm ((players.map toStanding).mergeSort standingsLe)
      (players.map toStanding) := List.mergeSort_perm _ _
  have hrank0 : ∀ s ∈ (players.map toStanding).mergeSort standingsLe, s.rank = 0 := by
    intro s hs
    have hmem : s ∈ players.map toStanding := hperm.mem_iff.mp hs
    obtain ⟨p, _, rfl⟩ := List.mem_map.mp hmem
    rfl
  have hmapunrank : ((players.map toStanding).mergeSort standingsLe).map unrank
      = (players.map toStanding).mergeSort standingsLe := by
    have hid : ∀ s ∈ (players.map toStanding).mergeSort standingsLe, unrank s = s := by
      intro s hs
      have h0 := hrank0 s hs
      obtain ⟨r, pid, dn, vp, t, lw⟩ := s
      simp only [unrank]
      simp_all
    rw [List.map_congr_left hid]
    simp
  refine ⟨?_, ?_, ?_, ?_⟩
  · rw [hfs]
    exact assignRanks_pairwise _ (fun a b i j h => h) 0 _ hsort
  · rw [hfs, assignRanks_map_rank]
    simp
  · rw [hfs, assignRanks_map_unrank, hmapunrank]
    exact hperm
  · intro a b hsub hcmp
    have hle : standingsLe a b = true := by
      simp [standingsLe, hcmp]
    have hst := List.pair_sublist_mergeSort trans total hle hsub
    rw [hfs, assignRanks_map_unrank, hmapunrank]
    exact hst

/-- C7 witness: three players fully tied on all three keys still receive
dense ranks 1, 2, 3, and the tied pair B, C keeps its registry order in
the output. -/
theorem c7_final_standings_witness :
    ((finalStandings exTied).map (fun s => s.rank) = [1, 2, 3])
    ∧ [toStanding (mkSession "B" 5 0 true true none),
       toStanding (mkSession "C" 5 0 true true none)].Sublist
        ((finalStandings exTied).map unrank) := by
  have h := c7_final_standings exTied
  refine ⟨?_, h.2.2.2 _ _ (by decide) (by decide)⟩
  rw [h.2.1]
  decide

/-! ## C9: confidentiality of reconnect tokens -/

theorem endRound_no_secrets (room : Room) (now : Int) :
    ∀ ev ∈ (endRound room now).2, eventSecrets ev = [] := by
  intro ev hev
  unfold endRound at hev
  split at hev
  · simp at hev
  · simp_all [eventSecrets, secretsIn]
    rcases hev with rfl | rfl <;> rfl

theorem checkRoundEnd_no_secrets (room : Room) (now : Int) :
    ∀ ev ∈ (checkRoundEnd room now).2, eventSecrets ev = [] := by
  intro ev hev
  unfold checkRoundEnd at hev
  split at hev
  · simp at hev
  · split at hev
    · simp at hev
    · dsimp only at hev
      split at hev
      · exact endRound_no_secrets _ _ ev hev
      · simp at hev

theorem sendCurrentState_no_secrets (room : Room) (conn : Nat) :
    ∀ ev ∈ sendCurrentState room conn, eventSecrets ev = [] := by
  intro ev hev
  unfold sendCurrentState at hev
  split at hev
  · simp at hev
  · split at hev <;> (simp only [List.mem_singleton] at hev; subst hev; rfl)

theorem endGame_no_secrets (room : Room) :
    ∀ ev ∈ (endGame room).2, eventSecrets ev = [] := by
  intro ev hev
  unfold endGame at hev
  split at hev
  · simp at hev
  · simp only [List.mem_singleton] at hev
    subst hev
    rfl

theorem startNextRound_no_secrets (room : Room) (now : Int) :
    ∀ ev ∈ (startNextRound room now).2, eventSecrets ev = [] := by
  intro ev hev
  unfold startNextRound at hev
  split at hev
  · simp at hev
  · simp only [List.mem_cons, List.mem_singleton, List.not_mem_nil, or_false] at hev
    rcases hev with rfl | rfl <;> rfl

theorem alarmCleanup_no_secrets (room : Room) :
    ∀ ev ∈ (alarmCleanup room).2, eventSecrets ev = [] := by
  intro ev hev
  unfold alarmCleanup at hev
  split at hev
  · simp at hev
  · split at hev
    · simp only [List.mem_map] at hev
      obtain ⟨p, _, rfl⟩ := hev
      rfl
    · simp at hev

theorem alarmReassignHost_no_secrets (room : Room) :
    ∀ ev ∈ (alarmReassignHost room).2, eventSecrets ev = [] := by
  intro ev hev
  unfold alarmReassignHost at hev
  split at hev
  · simp at hev
  · dsimp only at hev
    repeat' split at hev
    all_goals
      first
        | (simp only [List.mem_singleton] at hev; subst hev; rfl)
        | simp at hev

theorem alarm_no_secrets (room : Room) (now : Int) :
    ∀ ev ∈ (alarm room now).2, eventSecrets ev = [] := by
  intro ev hev
  unfold alarm at hev
  split at hev
  · simp at hev
  · dsimp only at hev
    simp only [List.mem_append, or_assoc] at hev
    rcases hev with h1 | h2 | h3
    · split at h1
      · split at h1
        · simp only [List.mem_cons, List.mem_singleton, List.not_mem_nil,
            or_false] at h1
          rcases h1 with rfl | rfl <;> rfl
        · rcases List.mem_cons.mp h1 with rfl | h1
          · rfl
          · exact checkRoundEnd_no_secrets _ _ ev h1
        · split at h1
          · exact endGame_no_secrets _ ev h1
          · exact startNextRound_no_secrets _ _ ev h1
        · simp at h1
      · simp at h1
    · exact alarmCleanup_no_secrets _ ev h2
    · exact alarmReassignHost_no_secrets _ ev h3

theorem webSocketClose_no_secrets (room : Room) (conn : Nat) (now : Int) :
    ∀ ev ∈ (webSocketClose room conn now).2, eventSecrets ev = [] := by
  intro ev hev
  unfold webSocketClose at hev
  split at hev
  · simp at hev
  · simp only [List.mem_cons, List.mem_singleton, List.not_mem_nil, or_false] at hev
    rcases hev with rfl | rfl <;> rfl

theorem handleReady_no_secrets (room : Room) (conn : Nat) (b : Bool) :
    ∀ ev ∈ (handleReady room conn b).2, eventSecrets ev = [] := by
  intro ev hev
  unfold handleReady at hev
  split at hev
  · split at hev
    · simp at hev
    · simp only [List.mem_singleton] at hev
      subst hev
      rfl
  · simp at hev

theorem handleStartGame_no_secrets (room : Room) (conn : Nat) (now : Int) :
    ∀ ev ∈ (handleStartGame room conn now).2, eventSecrets ev = [] := by
  intro ev hev
  unfold handleStartGame at hev
  split at hev
  · split at hev
    · simp only [List.mem_singleton] at hev
      subst hev
      rfl
    · split at hev
      · simp only [List.mem_singleton] at hev
        subst hev
        rfl
      · split at hev
        · simp only [List.mem_singleton] at hev
          subst hev
          rfl
        · simp only [List.mem_cons, List.mem_singleton, List.not_mem_nil,
            or_false] at hev
          rcases hev with rfl | rfl | rfl <;> rfl
  · simp at hev

theorem handleBidStart_no_secrets (room : Room) (conn : Nat) (cts now : Int) :
    ∀ ev ∈ (handleBidStart room conn cts now).2, eventSecrets ev = [] := by
  intro ev hev
  unfold handleBidStart at hev
  split at hev
  · split at hev
    · simp at hev
    · split at hev
      · simp at hev
      · split at hev
        · simp at hev
        · simp only [List.mem_singleton] at hev
          subst hev
          rfl
  · simp at hev

theorem handleBidEnd_no_secrets (room : Room) (conn : Nat) (cts now : Int) :
    ∀ ev ∈ (handleBidEnd room conn cts now).2, eventSecrets ev = [] := by
  intro ev hev
  unfold handleBidEnd at hev
  split at hev
  · split at hev
    · simp at hev
    · rcases List.mem_cons.mp hev with rfl | h
      · rfl
      · exact checkRoundEnd_no_secrets _ _ ev h
  · simp at hev

theorem handleKick_no_secrets (room : Room) (conn : Nat) (pid : String) :
    ∀ ev ∈ (handleKick room conn pid).2, eventSecrets ev = [] := by
  intro ev hev
  unfold handleKick at hev
  split at hev
  · split at hev
    · simp only [List.mem_singleton] at hev
      subst hev
      rfl
    · split at hev
      · simp only [List.mem_singleton] at hev
        subst hev
        rfl
      · split at hev
        · simp at hev
        · rcases List.mem_append.mp hev with h | h
          · split at h
            · simp only [List.mem_cons, List.mem_singleton, List.not_mem_nil,
                or_false] at h
              rcases h with rfl | rfl <;> rfl
            · simp at h
          · simp only [List.mem_singleton] at h
            subst h
            rfl
  · simp at hev

theorem handleLeave_no_secrets (room : Room) (conn : Nat) :
    ∀ ev ∈ (handleLeave room conn).2, eventSecrets ev = [] := by
  intro ev hev
  unfold handleLeave at hev
  split at hev
  · simp at hev
  · dsimp only at hev
    repeat' split at hev
    all_goals
      first
        | (simp only [List.mem_singleton] at hev; subst hev; rfl)
        | (simp only [List.mem_cons, List.mem_singleton, List.not_mem_nil,
            or_false] at hev
           rcases hev with rfl | rfl <;> rfl)

theorem handleJoinAfterPassword_secrets (room : Room) (conn : Nat) (pn : String)
    (rtok : Option String) (now : Int) (fid ftok : String) (ts : TableState) :
    ∀ ev ∈ (handleJoinAfterPassword room conn pn rtok now fid ftok ts).2,
      eventSecrets ev = [] ∨
      ∃ pid tk, ev = OutEvent.sendTo conn (ServerMessage.welcome pid tk now) ∧
        ∃ p ∈ (handleJoinAfterPassword room conn pn rtok now fid ftok ts).1.players,
          p.id = pid ∧ p.reconnectToken = tk := by
  intro ev hev
  rcases hrt : rtok with _ | t
  · subst hrt
    unfold handleJoinAfterPassword at hev ⊢
    simp only [Option.none_bind] at hev ⊢
    split_ifs at hev ⊢
    all_goals
      first
        | (simp only [List.mem_singleton] at hev; subst hev; exact Or.inl rfl)
        | (simp only [List.mem_cons, List.mem_singleton, List.not_mem_nil,
            or_false] at hev
           rcases hev with rfl | rfl | rfl
           · exact Or.inr ⟨fid, ftok, rfl, by
               refine ⟨_, List.mem_append_right _ (List.mem_singleton_self _), rfl, rfl⟩⟩
           · exact Or.inl rfl
           · exact Or.inl rfl)
  · subst hrt
    unfold handleJoinAfterPassword at hev ⊢
    simp only [Option.some_bind] at hev ⊢
    rcases hfind : room.players.find? (fun p => p.reconnectToken == t) with _ | player
    · rw [hfind] at hev ⊢
      dsimp only at hev ⊢
      split_ifs at hev ⊢
      all_goals
        first
          | (simp only [List.mem_singleton] at hev; subst hev; exact Or.inl rfl)
          | (simp only [List.mem_cons, List.mem_singleton, List.not_mem_nil,
              or_false] at hev
             rcases hev with rfl | rfl | rfl
             · exact Or.inr ⟨fid, ftok, rfl, by
                 refine ⟨_, List.mem_append_right _ (List.mem_singleton_self _), rfl, rfl⟩⟩
             · exact Or.inl rfl
             · exact Or.inl rfl)
    · rw [hfind] at hev ⊢
      dsimp only at hev ⊢
      rcases List.mem_append.mp hev with h | h
      · simp only [List.mem_cons, List.mem_singleton, List.not_mem_nil,
          or_false] at h
        rcases h with rfl | rfl
        · refine Or.inr ⟨player.id, player.reconnectToken, rfl, ?_⟩
          have hmem := List.mem_of_find?_eq_some hfind
          refine ⟨{ player with isConnected := true }, ?_, rfl, rfl⟩
          have hmm := List.mem_map_of_mem
            (fun p => if p.id = player.id then { p with isConnected := true } else p)
            hmem
          dsimp only at hmm
          rw [if_pos rfl] at hmm
          exact hmm
        · exact Or.inl rfl
      · exact Or.inl (sendCurrentState_no_secrets _ _ ev h)

theorem handleJoin_secrets (room : Room) (conn : Nat) (pn : String)
    (pw rtok : Option String) (now : Int) (fid ftok : String)
    (hashFn : String → String) :
    ∀ ev ∈ (handleJoin room conn pn pw rtok now fid ftok hashFn).2,
      eventSecrets ev = [] ∨
      ∃ pid tk, ev = OutEvent.sendTo conn (ServerMessage.welcome pid tk now) ∧
        ∃ p ∈ (handleJoin room conn pn pw rtok now fid ftok hashFn).1.players,
          p.id = pid ∧ p.reconnectToken = tk := by
  intro ev hev
  unfold handleJoin at hev ⊢
  rcases hts : room.tableState with _ | ts
  · rw [hts] at hev
    simp at hev
  · rw [hts] at hev
    dsimp only at hev ⊢
    rcases hph : ts.passwordHash with _ | storedHash
    · rw [hph] at hev
      exact handleJoinAfterPassword_secrets _ _ _ _ _ _ _ _ ev hev
    · rw [hph] at hev
      rcases hpw : pw with _ | pwd
      · rw [hpw] at hev
        simp only [List.mem_singleton] at hev
        subst hev
        exact Or.inl rfl
      · rw [hpw] at hev
        dsimp only at hev ⊢
        split_ifs at hev ⊢
        · simp only [List.mem_singleton] at hev
          subst hev
          exact Or.inl rfl
        · exact handleJoinAfterPassword_secrets _ _ _ _ _ _ _ _ ev hev

/-- C9 (confirmed).  No reconnect secret ever reaches another player: by
the shape of the shared message types the only server message carrying a
reconnect token is `welcome` (the Player record used in every state
broadcast has no token field); timer-driven processing and disconnect
processing emit no message carrying a token; and for every client
message, any emitted event that carries a token is a `welcome` sent
directly to the originating connection, containing that session's own id
and token. -/
theorem c9_secret_confidentiality (room : Room) (conn : Nat)
    (msg : ClientMessage) (now : Int) (fid ftok : String)
    (hashFn : String → String) :
    (∀ ev ∈ (handleMessage room conn msg now fid ftok hashFn).2,
      eventSecrets ev = [] ∨
      ∃ pid tk, ev = OutEvent.sendTo conn (ServerMessage.welcome pid tk now) ∧
        ∃ p ∈ (handleMessage room conn msg now fid ftok hashFn).1.players,
          p.id = pid ∧ p.reconnectToken = tk)
    ∧ (∀ ev ∈ (alarm room now).2, eventSecrets ev = [])
    ∧ (∀ ev ∈ (webSocketClose room conn now).2, eventSecrets ev = []) := by
  refine ⟨?_, alarm_no_secrets room now, webSocketClose_no_secrets room conn now⟩
  intro ev hev
  cases msg with
  | join pn pw rtok => exact handleJoin_secrets room conn pn pw rtok now fid ftok hashFn ev hev
  | ready b => exact Or.inl (handleReady_no_secrets room conn b ev hev)
  | startGame => exact Or.inl (handleStartGame_no_secrets room conn now ev hev)
  | bidStart cts => exact Or.inl (handleBidStart_no_secrets room conn cts now ev hev)
  | bidEnd cts => exact Or.inl (handleBidEnd_no_secrets room conn cts now ev hev)
  | kick pid => exact Or.inl (handleKick_no_secrets room conn pid ev hev)
  | ping =>
    simp only [handleMessage, List.mem_singleton] at hev
    subst hev
    exact Or.inl rfl
  | leave => exact Or.inl (handleLeave_no_secrets room conn ev hev)

/-- C9 witness: the confidentiality statement applied to a reconnecting
join on the password-protected table; the only token-bearing event is
the welcome to the joining connection. -/
theorem c9_secret_confidentiality_witness :
    eventSecrets (OutEvent.broadcastExcept none
        (ServerMessage.playerReconnected "A")) = []
    ∨ ∃ pid tk, OutEvent.broadcastExcept none (ServerMessage.playerReconnected "A")
        = OutEvent.sendTo 5 (ServerMessage.welcome pid tk 99) ∧
        ∃ p ∈ (handleMessage exRoomPw 5
            (ClientMessage.join "Z" (some "x") (some "tokA")) 99 "fid" "ftok"
            (fun _ => "HH")).1.players,
          p.id = pid ∧ p.reconnectToken = tk :=
  (c9_secret_confidentiality exRoomPw 5
      (ClientMessage.join "Z" (some "x") (some "tokA")) 99 "fid" "ftok"
      (fun _ => "HH")).1
    (OutEvent.broadcastExcept none (ServerMessage.playerReconnected "A"))
    (by decide)

end TimeAuction
